import Mathlib

/-!
Verification of the react-voice-recorder-pro hook library.

Shallow embedding of the library's algorithmic content:
* the recording timer of `useRecordingTimer` (src/src/hooks/useMicrophone.ts),
* the RMS audio meter of `useAudioMeter` (src/src/hooks/useAudioMeter.ts),
* the formatting and normalization utilities (src/src/utils/index.ts),
* the recorder control of `useMediaRecorder` (src/src/hooks/useMediaRecorder.ts),
* the microphone error mapping of `useMicrophone`,
* the error merging and object-URL lifecycle of `useVoiceRecorder`.

JavaScript numbers holding millisecond timestamps are modelled as `Int`
(`Math.floor` of a division by 1000 becomes `Int.fdiv`), audio samples from a
`Uint8Array` as `Nat`, and other JavaScript numbers as `ℚ`.  Blobs and media
chunks are modelled as opaque identifiers.
-/

namespace VoiceRecorder

/-! ## Recording timer (`useRecordingTimer`)

The hook keeps four pieces of state: the published `elapsedTime` (whole
seconds), `startTimeRef` (ms timestamp of the first activation),
`pausedTimeRef` (accumulated completed pause duration in ms) and
`pauseStartTimeRef` (ms timestamp of the pause in progress, if any).  The
effect body and the interval callback are modelled as events carrying the
value of `Date.now()` at the moment they run. -/

structure TimerState where
  elapsedTime : Int
  startTime : Option Int
  pausedTime : Int
  pauseStartTime : Option Int
  deriving Repr, DecidableEq

/-- The initial state of the hook: no start time, no accumulated pause. -/
def TimerState.init : TimerState := ⟨0, none, 0, none⟩

/-- Events of the timer state machine, each an observable run of the hook's
effect body or of its interval callback:
* `activate t`: the effect runs with `isRecording ∧ ¬isPaused` at time `t`
  (recording start or resume);
* `pauseAt t`: the effect runs with `isPaused` at time `t`;
* `stopRec`: the effect runs with `¬isRecording` (only clears the interval);
* `tick t`: the 100 ms interval callback fires at time `t`;
* `reset`: the caller invokes `reset`. -/
inductive TimerEvent where
  | activate (t : Int)
  | pauseAt (t : Int)
  | stopRec
  | tick (t : Int)
  | reset
  deriving Repr, DecidableEq

/-- One transition of the timer, translated from the body of the `useEffect`
and of the interval callback in `useRecordingTimer`. -/
def timerStep (st : TimerState) : TimerEvent → TimerState
  | .activate t =>
    match st.startTime with
    | none => { st with startTime := some t }
    | some _ =>
      match st.pauseStartTime with
      | some p =>
        { st with pausedTime := st.pausedTime + (t - p), pauseStartTime := none }
      | none => st
  | .pauseAt t =>
    match st.pauseStartTime with
    | none => { st with pauseStartTime := some t }
    | some _ => st
  | .stopRec => st
  | .tick t =>
    match st.startTime with
    | some s =>
      { st with elapsedTime := ((t - s) - st.pausedTime).fdiv 1000 }
    | none => st
  | .reset => TimerState.init

/-- Run the timer over a list of events. -/
def runTimer (st : TimerState) (evs : List TimerEvent) : TimerState :=
  evs.foldl timerStep st

/-- A complete recording session: first activation at `t0`, a list of
completed pause/resume cycles `(p, r)`, and a final tick at `tf`. -/
def sessionEvents (t0 : Int) (prs : List (Int × Int)) (tf : Int) : List TimerEvent :=
  .activate t0 :: (prs.flatMap fun pr => [.pauseAt pr.1, .activate pr.2]) ++ [.tick tf]

/-- The total duration of the completed pauses of a session. -/
def pauseSum (prs : List (Int × Int)) : Int :=
  (prs.map fun pr => pr.2 - pr.1).sum

/-! ## Time formatting -/

/-- `String.padStart(2, '0')` applied to the decimal representation of a
natural number. -/
def pad2 (n : Nat) : String :=
  if n < 10 then "0" ++ Nat.repr n else Nat.repr n

/-- `formatTime` from `useRecordingTimer`: always-zero-padded `HH:MM:SS`. -/
def formatTime (seconds : Nat) : String :=
  let hours := seconds / 3600
  let mins := (seconds % 3600) / 60
  let secs := seconds % 60
  pad2 hours ++ ":" ++ pad2 mins ++ ":" ++ pad2 secs

/-- `formatDuration` from `src/src/utils/index.ts`: emits
`hours:MM:SS` when `hours > 0` and `minutes:SS` otherwise, with the leading
field not zero-padded. -/
def formatDuration (seconds : Nat) : String :=
  let hours := seconds / 3600
  let minutes := (seconds % 3600) / 60
  let secs := seconds % 60
  if hours > 0 then
    Nat.repr hours ++ ":" ++ pad2 minutes ++ ":" ++ pad2 secs
  else
    Nat.repr minutes ++ ":" ++ pad2 secs

/-! ## Audio meter (`useAudioMeter`)

The `tick` callback reads one byte per sample from the analyser
(`getByteTimeDomainData`), normalizes each sample `x` to `(x - 128) / 128`,
sums the squares, divides by the sample count and takes the square root.
Samples are modelled as `Nat` (a `Uint8Array` entry), the arithmetic over
`ℚ`, and `Math.sqrt` as `Real.sqrt`. -/

/-- The loop body of `tick`: `v = (data[i] - 128) / 128; v * v`. -/
def normSq (x : Nat) : ℚ :=
  (((x : ℚ) - 128) / 128) * (((x : ℚ) - 128) / 128)

/-- Sum of the squared normalized samples accumulated by `tick`. -/
def sumSquares (data : List Nat) : ℚ :=
  (data.map normSq).sum

/-- Mean of the squared normalized samples (`sumSquares / data.length`). -/
def meanSquares (data : List Nat) : ℚ :=
  sumSquares data / (data.length : ℚ)

/-- The RMS level published by `tick`:
`Math.sqrt(sumSquares / data.length)`. -/
noncomputable def tickLevel (data : List Nat) : ℝ :=
  Real.sqrt ((meanSquares data : ℚ) : ℝ)

/-! ## Utilities (`src/src/utils/index.ts`) -/

/-- `normalizeAudioLevel`: clamps the level to `[0, 1]` and squashes values
below `minLevel` (default `0.01`) to `0`. -/
def normalizeAudioLevel (level : ℚ) (minLevel : ℚ := 1 / 100) : ℚ :=
  let normalized := max 0 (min 1 level)
  if normalized < minLevel then 0 else normalized

/-! ## Recorder (`useMediaRecorder`)

The underlying `MediaRecorder` engine is in one of three states; the hook
holds an optional engine (`recorderRef`), the accumulated chunks, the pause
flag and the error field.  Chunks and streams are opaque identifiers. -/

inductive EngineState where
  | inactive
  | recording
  | paused
  deriving Repr, DecidableEq

/-- A finalized blob: the chunk identifiers it was assembled from and its
MIME type. -/
structure JsBlob where
  chunks : List Nat
  type : String
  deriving Repr, DecidableEq

/-- `stop` from `useMediaRecorder`: resolves `null` when the engine is absent
or inactive, otherwise stops the engine and resolves with a blob assembled
from the accumulated chunks, tagged with the hook's MIME type.  The promise
executor contains no `throw` path; a rejection would be a `.error` value. -/
def stopRecorder (engine : Option EngineState) (chunks : List Nat)
    (mimeType : String) : Except String (Option JsBlob) :=
  match engine with
  | none => .ok none
  | some s =>
    if s = .inactive then .ok none
    else .ok (some ⟨chunks, mimeType⟩)

/-- The state of the `useMediaRecorder` hook relevant to `start`. -/
structure RecorderHookState where
  isRecording : Bool
  isPaused : Bool
  chunks : List Nat
  error : Option String
  engine : Option EngineState
  deriving Repr, DecidableEq

/-- `start` from `useMediaRecorder`: clears the error, the chunks and the
pause flag, then calls `engine.start(100)` exactly when the engine exists and
is inactive.  The call is wrapped in a `try`/`catch`: when the engine's
`start` throws (`startThrows = true`) the catch stores
`'Recording start failed'` and the engine stays inactive.  The second
component reports the timeslice passed to the engine's `start`, `none` when
the engine was not invoked. -/
def startRecorder (st : RecorderHookState) (startThrows : Bool) :
    RecorderHookState × Option Nat :=
  let st1 := { st with error := none, chunks := [], isPaused := false }
  match st.engine with
  | none => (st1, none)
  | some e =>
    if e = .inactive then
      if startThrows then
        ({ st1 with error := some "Recording start failed" }, some 100)
      else
        ({ st1 with engine := some .recording }, some 100)
    else (st1, none)

/-! ## Microphone error mapping (`useMicrophone.enable`) -/

def permissionDeniedMsg : String :=
  "Permission denied. Please allow microphone in browser site settings."

def deviceNotFoundMsg : String := "Microphone device not found."

def deviceUnavailableMsg : String :=
  "Another app is using the microphone or it is not accessible."

def genericMicMsg : String := "Microphone permission or device error"

/-- The `catch` branch of `enable`: maps the `name` of the platform error
(`none` when the thrown value is not an object carrying a name) to a
user-facing message. -/
def mapMicError (name : Option String) : String :=
  if name = some "NotAllowedError" ∨ name = some "SecurityError" then
    permissionDeniedMsg
  else if name = some "NotFoundError" then deviceNotFoundMsg
  else if name = some "NotReadableError" then deviceUnavailableMsg
  else genericMicMsg

/-- The microphone state touched by `enable`. -/
structure MicState where
  stream : Option Nat
  isEnabled : Bool
  error : Option String
  deriving Repr, DecidableEq

/-- The outcome of a failed `enable` call: any previous stream was already
torn down before `getUserMedia` threw, the error field receives the mapped
message and the enabled flag is cleared. -/
def enableFailure (_st : MicState) (name : Option String) : MicState :=
  { stream := none, isEnabled := false, error := some (mapMicError name) }

/-! ## Orchestrator error merging (`useVoiceRecorder`)

The effect `setError(micError || recorderError || error)` runs whenever one
of the three dependencies changes.  JavaScript `||` treats `null` and the
empty string as falsy. -/

/-- JavaScript truthiness of a `string | null` value. -/
def isTruthy : Option String → Bool
  | none => false
  | some s => s ≠ ""

/-- JavaScript `a || b` on `string | null` values. -/
def jsOr (a b : Option String) : Option String :=
  if isTruthy a then a else b

/-- The orchestrator's error-related state: the microphone error, the
recorder error, and the locally stored (visible) error. -/
structure OrchErrState where
  micErr : Option String
  recErr : Option String
  err : Option String
  deriving Repr, DecidableEq

/-- Events acting on the orchestrator's error state: a dependency update
from the microphone or the recorder, a locally raised error
(`setError('Failed to start recording.')` etc.), and a run of the merging
effect. -/
inductive ErrEvent where
  | setMic (v : Option String)
  | setRec (v : Option String)
  | setLocal (v : Option String)
  | merge
  deriving Repr, DecidableEq

def errStep (st : OrchErrState) : ErrEvent → OrchErrState
  | .setMic v => { st with micErr := v }
  | .setRec v => { st with recErr := v }
  | .setLocal v => { st with err := v }
  | .merge => { st with err := jsOr st.micErr (jsOr st.recErr st.err) }

def runErr (st : OrchErrState) (evs : List ErrEvent) : OrchErrState :=
  evs.foldl errStep st

def OrchErrState.init : OrchErrState := ⟨none, none, none⟩

/-! ## Object-URL lifecycle (`useVoiceRecorder`)

The URL-management effect runs whenever `recordedBlob` changes: with a blob
it revokes the previously minted URL (if any) and then mints a fresh one;
without a blob it revokes and clears.  The unmount cleanup revokes the
remaining URL.  URLs are modelled as consecutive identifiers handed out by a
counter; `revoked` is the chronological log of `URL.revokeObjectURL` calls. -/

structure UrlState where
  prevUrl : Option Nat
  nextId : Nat
  revoked : List Nat
  deriving Repr, DecidableEq

def UrlState.init : UrlState := ⟨none, 0, []⟩

/-- Events of the URL lifecycle: the blob reference changed to a new blob,
the blob reference was cleared, or the component unmounted. -/
inductive UrlEvent where
  | blobSet
  | blobClear
  | unmount
  deriving Repr, DecidableEq

/-- One run of the URL-management effect (or of the unmount cleanup).  On
`blobSet` the previous URL is revoked before the new one is minted; after
`unmount` the component is gone, so the reference is modelled as cleared. -/
def urlStep (st : UrlState) : UrlEvent → UrlState
  | .blobSet =>
    { prevUrl := some st.nextId
      nextId := st.nextId + 1
      revoked := st.revoked ++ st.prevUrl.toList }
  | .blobClear =>
    { st with prevUrl := none, revoked := st.revoked ++ st.prevUrl.toList }
  | .unmount =>
    { st with prevUrl := none, revoked := st.revoked ++ st.prevUrl.toList }

def runUrls (evs : List UrlEvent) : UrlState :=
  evs.foldl urlStep UrlState.init

/-- The URLs minted so far that have not been revoked. -/
def liveUrls (st : UrlState) : List Nat :=
  (List.range st.nextId).filter fun u => ¬ st.revoked.contains u

/-- Invariant of the URL state machine: the revocation log is exactly the
minted identifiers below the counter, minus the currently held URL, which is
the most recently minted one when present. -/
def UrlInv (st : UrlState) : Prop :=
  (st.prevUrl = none ∧ st.revoked = List.range st.nextId) ∨
  (∃ m, st.nextId = m + 1 ∧ st.prevUrl = some m ∧ st.revoked = List.range m)

/-! ## Theorems -/

/-- Running the completed pause/resume cycles of a session accumulates the sum
of the pause durations into `pausedTime` and touches nothing else. -/
theorem runTimer_pairs (prs : List (Int × Int)) (e t0 P : Int) :
    runTimer ⟨e, some t0, P, none⟩
        (prs.flatMap fun pr => [.pauseAt pr.1, .activate pr.2])
      = ⟨e, some t0, P + pauseSum prs, none⟩ := by
  induction prs generalizing P with
  | nil => simp [runTimer, pauseSum]
  | cons pr rest ih =>
    obtain ⟨p, r⟩ := pr
    have hstep : runTimer ⟨e, some t0, P, none⟩
        (((p, r) :: rest).flatMap fun pr => [.pauseAt pr.1, .activate pr.2])
        = runTimer ⟨e, some t0, P + (r - p), none⟩
            (rest.flatMap fun pr => [.pauseAt pr.1, .activate pr.2]) := rfl
    rw [hstep, ih]
    have : P + (r - p) + pauseSum rest = P + pauseSum ((p, r) :: rest) := by
      simp [pauseSum]; ring
    rw [this]

/-- C1: for every timer session (first activation at `t0`, completed
pause/resume cycles `prs`, final interval tick at `tf`), the reported elapsed
time equals `floor(((tf - t0) - pauseSum prs) / 1000)` seconds, where
`pauseSum prs` is the sum of all completed pause durations; hence with total
wall time `T = tf - t0` and total pause `P`, the elapsed seconds count
matches `T - P` to within one whole second of the displayed counter. -/
theorem timer_session_elapsed (t0 tf : Int) (prs : List (Int × Int)) :
    (runTimer TimerState.init (sessionEvents t0 prs tf)).elapsedTime
        = ((tf - t0) - pauseSum prs).fdiv 1000 ∧
    1000 * (runTimer TimerState.init (sessionEvents t0 prs tf)).elapsedTime
        ≤ (tf - t0) - pauseSum prs ∧
    (tf - t0) - pauseSum prs
        < 1000 * (runTimer TimerState.init (sessionEvents t0 prs tf)).elapsedTime
            + 1000 := by
  have hact : runTimer TimerState.init (sessionEvents t0 prs tf)
      = runTimer ⟨0, some t0, 0, none⟩
          ((prs.flatMap fun pr => [.pauseAt pr.1, .activate pr.2]) ++ [.tick tf]) := rfl
  have hsplit : runTimer TimerState.init (sessionEvents t0 prs tf)
      = runTimer
          (runTimer ⟨0, some t0, 0, none⟩
            (prs.flatMap fun pr => [.pauseAt pr.1, .activate pr.2]))
          [.tick tf] := by
    rw [hact]; simp [runTimer]
  have hfinal : runTimer TimerState.init (sessionEvents t0 prs tf)
      = ⟨((tf - t0) - pauseSum prs).fdiv 1000, some t0, pauseSum prs, none⟩ := by
    rw [hsplit, runTimer_pairs]
    simp [runTimer, timerStep]
  rw [hfinal]
  refine ⟨rfl, ?_, ?_⟩ <;>
    · dsimp only
      rw [Int.fdiv_eq_ediv _ (by norm_num)]
      omega

/-- A byte sample in `0..255` has normalized square at most `1`. -/
theorem normSq_le_one (x : Nat) (h : x ≤ 255) : normSq x ≤ 1 := by
  have hx0 : (0 : ℚ) ≤ (x : ℚ) := by positivity
  have hx : (x : ℚ) ≤ 255 := by exact_mod_cast h
  have hlo : (-1 : ℚ) ≤ ((x : ℚ) - 128) / 128 := by linarith
  have hhi : ((x : ℚ) - 128) / 128 ≤ 1 := by linarith
  rw [normSq]
  nlinarith

theorem normSq_nonneg (x : Nat) : 0 ≤ normSq x :=
  mul_self_nonneg _

theorem sumSquares_nonneg (data : List Nat) : 0 ≤ sumSquares data := by
  rw [sumSquares]
  refine List.sum_nonneg ?_
  intro q hq
  obtain ⟨x, -, rfl⟩ := List.mem_map.mp hq
  exact normSq_nonneg x

theorem sumSquares_le_length (data : List Nat) (h : ∀ x ∈ data, x ≤ 255) :
    sumSquares data ≤ (data.length : ℚ) := by
  have hb : ∀ q ∈ data.map normSq, q ≤ (1 : ℚ) := by
    intro q hq
    obtain ⟨x, hx, rfl⟩ := List.mem_map.mp hq
    exact normSq_le_one x (h x hx)
  have := List.sum_le_card_nsmul (data.map normSq) (1 : ℚ) hb
  simpa [sumSquares] using this

/-- C2: for every nonempty waveform buffer whose byte samples lie in
`0..255`, the RMS level computed by the meter's `tick` lies in `[0, 1]`. -/
theorem tickLevel_mem_unit (data : List Nat) (hne : 0 < data.length)
    (hb : ∀ x ∈ data, x ≤ 255) :
    0 ≤ tickLevel data ∧ tickLevel data ≤ 1 := by
  refine ⟨Real.sqrt_nonneg _, ?_⟩
  rw [tickLevel, Real.sqrt_le_one]
  have hmean : meanSquares data ≤ 1 := by
    rw [meanSquares, div_le_one (by exact_mod_cast hne)]
    exact sumSquares_le_length data hb
  exact_mod_cast hmean

/-- C2 witness: a concrete three-sample buffer. -/
theorem tickLevel_mem_unit_witness :
    0 ≤ tickLevel [0, 128, 255] ∧ tickLevel [0, 128, 255] ≤ 1 :=
  tickLevel_mem_unit [0, 128, 255] (by decide) (by decide)

/-- C9: a nonempty buffer whose samples are all at the midpoint `128` yields
RMS level exactly `0`. -/
theorem tickLevel_silent (data : List Nat) (hne : 0 < data.length)
    (h : ∀ x ∈ data, x = 128) : tickLevel data = 0 := by
  have hsum : sumSquares data = 0 := by
    rw [sumSquares]
    refine List.sum_eq_zero ?_
    intro q hq
    obtain ⟨x, hx, rfl⟩ := List.mem_map.mp hq
    rw [h x hx, normSq]
    norm_num
  rw [tickLevel, meanSquares, hsum]
  simp

/-- C9 witness: a concrete silent buffer. -/
theorem tickLevel_silent_witness : tickLevel [128, 128] = 0 :=
  tickLevel_silent [128, 128] (by decide) (by decide)

/-- C10: `normalizeAudioLevel` always returns a value in `[0, 1]`; it returns
`0` exactly when the clamped input is strictly below `minLevel`, and returns
the clamped input unchanged otherwise. -/
theorem normalizeAudioLevel_spec (level minLevel : ℚ) :
    0 ≤ normalizeAudioLevel level minLevel ∧
    normalizeAudioLevel level minLevel ≤ 1 ∧
    (max 0 (min 1 level) < minLevel → normalizeAudioLevel level minLevel = 0) ∧
    (minLevel ≤ max 0 (min 1 level) →
      normalizeAudioLevel level minLevel = max 0 (min 1 level)) := by
  have hclamp0 : 0 ≤ max 0 (min 1 level) := le_max_left _ _
  have hclamp1 : max 0 (min 1 level) ≤ 1 :=
    max_le (by norm_num) (min_le_left _ _)
  have hdef : normalizeAudioLevel level minLevel
      = if max 0 (min 1 level) < minLevel then 0 else max 0 (min 1 level) := rfl
  rw [hdef]
  by_cases h : max 0 (min 1 level) < minLevel
  · rw [if_pos h]
    exact ⟨le_refl 0, by norm_num, fun _ => rfl, fun hc => absurd h (not_lt.mpr hc)⟩
  · rw [if_neg h]
    exact ⟨hclamp0, hclamp1, fun hc => absurd hc h, fun _ => rfl⟩

/-- C10 witness: a sub-threshold level is squashed to `0` and a large level is
clamped to `1` and returned. -/
theorem normalizeAudioLevel_spec_witness :
    normalizeAudioLevel (1 / 200) (1 / 100) = 0 ∧
    normalizeAudioLevel 2 (1 / 100) = max 0 (min 1 2) :=
  ⟨(normalizeAudioLevel_spec (1 / 200) (1 / 100)).2.2.1 (by norm_num),
   (normalizeAudioLevel_spec 2 (1 / 100)).2.2.2 (by norm_num)⟩

/-! Formatting paths (`formatTime` vs `formatDuration`). -/

theorem pad2_of_lt (n : Nat) (h : n < 10) : pad2 n = "0" ++ Nat.repr n := by
  rw [pad2, if_pos h]

theorem pad2_of_ge (n : Nat) (h : ¬ n < 10) : pad2 n = Nat.repr n := by
  rw [pad2, if_neg h]

theorem formatDuration_of_pos (s : Nat) (h : 0 < s / 3600) :
    formatDuration s
      = Nat.repr (s / 3600) ++ ":" ++ pad2 (s % 3600 / 60) ++ ":" ++ pad2 (s % 60) := by
  rw [formatDuration]
  simp [h]

theorem formatDuration_of_zero (s : Nat) (h : s / 3600 = 0) :
    formatDuration s = Nat.repr (s % 3600 / 60) ++ ":" ++ pad2 (s % 60) := by
  rw [formatDuration]
  simp [h]

theorem str_fuse_minutes (x : String) : "00" ++ (":" ++ ("0" ++ x)) = "00:0" ++ x := by
  rw [← String.append_assoc, ← String.append_assoc]
  rfl

theorem str_fuse_colon (x : String) : "00" ++ (":" ++ x) = "00:" ++ x := by
  rw [← String.append_assoc]
  rfl

/-- C6 counterexample: at 30 seconds, `formatDuration` emits `"0:30"` — the
minutes field is not zero-padded once the hour field is omitted — while
`formatTime` emits `"00:00:30"`; so the utility path does not emit zero-padded
`MM:SS` and the two paths disagree beyond the hour omission. -/
theorem formatDuration_unpadded_minutes :
    formatDuration 30 = "0:30" ∧ formatDuration 30 ≠ "00:30" ∧
    formatTime 30 = "00:00:30" := by
  refine ⟨rfl, ?_, rfl⟩
  decide

/-- C6 (amended): `formatTime` always emits zero-padded `HH:MM:SS`;
`formatDuration` leaves its leading field unpadded — `H:MM:SS` when the hour
count is positive and `M:SS` when it is zero.  Consequently `formatTime s` is
`formatDuration s` with the leading field padded to two digits and, when the
hour count is zero, the `"00:"` hour field restored. -/
theorem formatTime_formatDuration_agree (s : Nat) :
    (0 < s / 3600 →
      formatTime s = formatDuration s ∨ formatTime s = "0" ++ formatDuration s) ∧
    (s / 3600 = 0 →
      formatTime s = "00:" ++ formatDuration s ∨
      formatTime s = "00:0" ++ formatDuration s) := by
  constructor
  · intro hh
    rw [formatTime, formatDuration_of_pos s hh]
    by_cases h10 : s / 3600 < 10
    · right
      rw [pad2_of_lt _ h10]
      simp [String.append_assoc]
    · left
      rw [pad2_of_ge _ h10]
  · intro hh
    rw [formatTime, formatDuration_of_zero s hh, hh]
    by_cases hm : s % 3600 / 60 < 10
    · right
      rw [pad2_of_lt _ hm, show pad2 0 = "00" from rfl]
      simp only [String.append_assoc]
      rw [str_fuse_minutes]
    · left
      rw [pad2_of_ge _ hm, show pad2 0 = "00" from rfl]
      simp only [String.append_assoc]
      rw [str_fuse_colon]

/-- C6 amended-claim witness: concrete inputs on both sides of the hour
boundary. -/
theorem formatTime_formatDuration_agree_witness :
    (formatTime 3661 = formatDuration 3661 ∨
      formatTime 3661 = "0" ++ formatDuration 3661) ∧
    (formatTime 30 = "00:" ++ formatDuration 30 ∨
      formatTime 30 = "00:0" ++ formatDuration 30) :=
  ⟨(formatTime_formatDuration_agree 3661).1 (by decide),
   (formatTime_formatDuration_agree 30).2 (by decide)⟩

/-! Error merging (C3). -/

/-- C3 counterexample: the microphone errors first, the recorder errors last,
and the visible error is still the microphone's — the merge
`micError || recorderError || error` uses fixed priority, not
last-write-wins. -/
theorem errorMerge_not_lastWriteWins :
    (runErr OrchErrState.init
        [.setMic (some "mic failed"), .merge, .setRec (some "rec failed"), .merge]).err
      = some "mic failed" ∧
    (runErr OrchErrState.init
        [.setMic (some "mic failed"), .merge, .setRec (some "rec failed"), .merge]).err
      ≠ some "rec failed" := by
  refine ⟨rfl, ?_⟩
  decide

/-- C3 (amended): the externally visible error after a merge is selected by
fixed priority, not recency: the microphone error if truthy, else the
recorder error if truthy, else the previously stored local/merged error; in
particular the result is independent of the order in which the microphone
and recorder errors were written. -/
theorem errorMerge_fixed_priority (st : OrchErrState) (m r : Option String) :
    (runErr st [.setMic m, .setRec r, .merge]).err
        = (runErr st [.setRec r, .setMic m, .merge]).err ∧
    (isTruthy m = true → (runErr st [.setMic m, .setRec r, .merge]).err = m) ∧
    (isTruthy m = false → isTruthy r = true →
      (runErr st [.setMic m, .setRec r, .merge]).err = r) ∧
    (isTruthy m = false → isTruthy r = false →
      (runErr st [.setMic m, .setRec r, .merge]).err = st.err) := by
  have h1 : (runErr st [.setMic m, .setRec r, .merge]).err
      = jsOr m (jsOr r st.err) := rfl
  have h2 : (runErr st [.setRec r, .setMic m, .merge]).err
      = jsOr m (jsOr r st.err) := rfl
  rw [h1, h2]
  refine ⟨rfl, ?_, ?_, ?_⟩
  · intro hm
    rw [jsOr, if_pos hm]
  · intro hm hr
    rw [jsOr, if_neg (by rw [hm]; exact Bool.false_ne_true), jsOr, if_pos hr]
  · intro hm hr
    rw [jsOr, if_neg (by rw [hm]; exact Bool.false_ne_true),
      jsOr, if_neg (by rw [hr]; exact Bool.false_ne_true)]

/-- C3 amended-claim witness: with both sources errored the microphone wins;
with the microphone clear the recorder's error shows. -/
theorem errorMerge_fixed_priority_witness :
    (runErr OrchErrState.init [.setMic (some "A"), .setRec (some "B"), .merge]).err
      = some "A" ∧
    (runErr OrchErrState.init [.setMic none, .setRec (some "B"), .merge]).err
      = some "B" :=
  ⟨(errorMerge_fixed_priority OrchErrState.init (some "A") (some "B")).2.1
      (by decide),
   (errorMerge_fixed_priority OrchErrState.init none (some "B")).2.2.1
      (by decide) (by decide)⟩

/-! Recorder `stop` (C4) and `start` (C7). -/

/-- C4: `stop` never throws or rejects: it always resolves, with `null` when
the engine is absent or inactive, and with a blob assembled from the
accumulated chunks tagged with the target MIME type otherwise. -/
theorem stopRecorder_spec (engine : Option EngineState) (chunks : List Nat)
    (mime : String) :
    (∃ v, stopRecorder engine chunks mime = .ok v) ∧
    (engine = none ∨ engine = some .inactive →
      stopRecorder engine chunks mime = .ok none) ∧
    (∀ s, engine = some s → s ≠ .inactive →
      stopRecorder engine chunks mime = .ok (some ⟨chunks, mime⟩)) := by
  refine ⟨?_, ?_, ?_⟩
  · cases engine with
    | none => exact ⟨none, rfl⟩
    | some s =>
      cases s with
      | inactive => exact ⟨none, rfl⟩
      | recording => exact ⟨some ⟨chunks, mime⟩, rfl⟩
      | paused => exact ⟨some ⟨chunks, mime⟩, rfl⟩
  · rintro (rfl | rfl) <;> rfl
  · rintro s rfl hne
    cases s with
    | inactive => exact absurd rfl hne
    | recording => rfl
    | paused => rfl

/-- C4 witness: an inactive engine resolves `null`; a recording engine
resolves a blob carrying the chunks and MIME type. -/
theorem stopRecorder_spec_witness :
    stopRecorder (some .inactive) [7] "audio/webm" = .ok none ∧
    stopRecorder (some .recording) [7] "audio/webm"
      = .ok (some ⟨[7], "audio/webm"⟩) :=
  ⟨(stopRecorder_spec (some .inactive) [7] "audio/webm").2.1 (Or.inr rfl),
   (stopRecorder_spec (some .recording) [7] "audio/webm").2.2 .recording rfl
      (by decide)⟩

/-- C7: `start` always clears the chunk list and the pause flag, and always
replaces the prior error: the resulting error is `none` unless the invoked
engine `start` threw, in which case it is `'Recording start failed'`; the
engine's `start` is invoked with the 100 ms timeslice exactly when the
engine exists and is inactive, and the engine is left untouched otherwise —
and also when the invocation throws. -/
theorem startRecorder_spec (st : RecorderHookState) (startThrows : Bool) :
    (startRecorder st startThrows).1.chunks = [] ∧
    (startRecorder st startThrows).1.isPaused = false ∧
    ((startRecorder st startThrows).1.error = none ∨
      (startRecorder st startThrows).1.error = some "Recording start failed") ∧
    (¬ (st.engine = some .inactive ∧ startThrows = true) →
      (startRecorder st startThrows).1.error = none) ∧
    (st.engine = some .inactive → startThrows = true →
      (startRecorder st startThrows).1.error = some "Recording start failed") ∧
    ((startRecorder st startThrows).2 = some 100 ↔ st.engine = some .inactive) ∧
    (st.engine ≠ some .inactive →
      (startRecorder st startThrows).1.engine = st.engine) ∧
    (startThrows = true →
      (startRecorder st startThrows).1.engine = st.engine) := by
  obtain ⟨ir, ip, ch, er, eng⟩ := st
  cases eng with
  | none =>
    refine ⟨rfl, rfl, Or.inl rfl, fun _ => rfl, fun h => ?_,
      ⟨fun h => ?_, fun h => ?_⟩, fun _ => rfl, fun _ => rfl⟩ <;> cases h
  | some e =>
    cases e with
    | inactive =>
      cases startThrows with
      | false =>
        refine ⟨rfl, rfl, Or.inl rfl, fun _ => rfl, fun _ h => ?_,
          ⟨fun _ => rfl, fun _ => rfl⟩, fun h => absurd rfl h, fun h => ?_⟩ <;>
          cases h
      | true =>
        exact ⟨rfl, rfl, Or.inr rfl, fun h => absurd ⟨rfl, rfl⟩ h,
          fun _ _ => rfl, ⟨fun _ => rfl, fun _ => rfl⟩,
          fun h => absurd rfl h, fun _ => rfl⟩
    | recording =>
      refine ⟨rfl, rfl, Or.inl rfl, fun _ => rfl, fun h => ?_,
        ⟨fun h => ?_, fun h => ?_⟩, fun _ => rfl, fun _ => rfl⟩
      · simp at h
      · cases h
      · simp at h
    | paused =>
      refine ⟨rfl, rfl, Or.inl rfl, fun _ => rfl, fun h => ?_,
        ⟨fun h => ?_, fun h => ?_⟩, fun _ => rfl, fun _ => rfl⟩
      · simp at h
      · cases h
      · simp at h

/-- C7 witness: an idle engine whose `start` succeeds, an idle engine whose
`start` throws, and a recording engine that is left untouched. -/
theorem startRecorder_spec_witness :
    (startRecorder ⟨false, true, [3], some "e", some .inactive⟩ false).1.error
      = none ∧
    (startRecorder ⟨false, true, [3], some "e", some .inactive⟩ true).1.error
      = some "Recording start failed" ∧
    (startRecorder ⟨false, true, [3], some "e", some .inactive⟩ true).2
      = some 100 ∧
    (startRecorder ⟨true, false, [3], none, some .recording⟩ false).1.engine
      = some .recording :=
  ⟨(startRecorder_spec ⟨false, true, [3], some "e", some .inactive⟩
      false).2.2.2.1 (by decide),
   (startRecorder_spec ⟨false, true, [3], some "e", some .inactive⟩
      true).2.2.2.2.1 rfl rfl,
   (startRecorder_spec ⟨false, true, [3], some "e", some .inactive⟩
      true).2.2.2.2.2.1.mpr rfl,
   (startRecorder_spec ⟨true, false, [3], none, some .recording⟩
      false).2.2.2.2.2.2.1 (by decide)⟩

/-! Microphone error mapping (C8). -/

/-- `mapMicError` hits exactly one branch. -/
theorem mapMicError_cases (name : Option String) :
    ((name = some "NotAllowedError" ∨ name = some "SecurityError") ∧
      mapMicError name = permissionDeniedMsg) ∨
    (name = some "NotFoundError" ∧ mapMicError name = deviceNotFoundMsg) ∨
    (name = some "NotReadableError" ∧ mapMicError name = deviceUnavailableMsg) ∨
    ((name ≠ some "NotAllowedError" ∧ name ≠ some "SecurityError" ∧
        name ≠ some "NotFoundError" ∧ name ≠ some "NotReadableError") ∧
      mapMicError name = genericMicMsg) := by
  by_cases c1 : name = some "NotAllowedError" ∨ name = some "SecurityError"
  · exact Or.inl ⟨c1, by rw [mapMicError, if_pos c1]⟩
  · by_cases c2 : name = some "NotFoundError"
    · exact Or.inr (Or.inl ⟨c2, by rw [mapMicError, if_neg c1, if_pos c2]⟩)
    · by_cases c3 : name = some "NotReadableError"
      · exact Or.inr (Or.inr (Or.inl
          ⟨c3, by rw [mapMicError, if_neg c1, if_neg c2, if_pos c3]⟩))
      · refine Or.inr (Or.inr (Or.inr
          ⟨⟨fun h => c1 (Or.inl h), fun h => c1 (Or.inr h), c2, c3⟩, ?_⟩))
        rw [mapMicError, if_neg c1, if_neg c2, if_neg c3]

/-- C8: a failed `enable` ends with the enabled flag cleared, no stream, and
the error field carrying the mapped message; the mapping sends
`NotAllowedError`/`SecurityError` to permission-denied, `NotFoundError` to
device-not-found, `NotReadableError` to device-unavailable, and everything
else to the generic message. -/
theorem enableFailure_spec (st : MicState) (name : Option String) :
    (enableFailure st name).isEnabled = false ∧
    (enableFailure st name).stream = none ∧
    (enableFailure st name).error = some (mapMicError name) ∧
    (mapMicError name = permissionDeniedMsg ↔
      name = some "NotAllowedError" ∨ name = some "SecurityError") ∧
    (mapMicError name = deviceNotFoundMsg ↔ name = some "NotFoundError") ∧
    (mapMicError name = deviceUnavailableMsg ↔ name = some "NotReadableError") ∧
    (name ≠ some "NotAllowedError" → name ≠ some "SecurityError" →
      name ≠ some "NotFoundError" → name ≠ some "NotReadableError" →
      mapMicError name = genericMicMsg) := by
  have d12 : permissionDeniedMsg ≠ deviceNotFoundMsg := by decide
  have d13 : permissionDeniedMsg ≠ deviceUnavailableMsg := by decide
  have d14 : permissionDeniedMsg ≠ genericMicMsg := by decide
  have d23 : deviceNotFoundMsg ≠ deviceUnavailableMsg := by decide
  have d24 : deviceNotFoundMsg ≠ genericMicMsg := by decide
  have d34 : deviceUnavailableMsg ≠ genericMicMsg := by decide
  refine ⟨rfl, rfl, rfl, ?_, ?_, ?_, ?_⟩
  · constructor
    · intro h
      rcases mapMicError_cases name with ⟨hc, _⟩ | ⟨_, hm⟩ | ⟨_, hm⟩ | ⟨_, hm⟩
      · exact hc
      · exact absurd (hm.symm.trans h) (Ne.symm d12)
      · exact absurd (hm.symm.trans h) (Ne.symm d13)
      · exact absurd (hm.symm.trans h) (Ne.symm d14)
    · rintro (rfl | rfl) <;> rfl
  · constructor
    · intro h
      rcases mapMicError_cases name with ⟨_, hm⟩ | ⟨hc, _⟩ | ⟨_, hm⟩ | ⟨_, hm⟩
      · exact absurd (hm.symm.trans h) d12
      · exact hc
      · exact absurd (hm.symm.trans h) (Ne.symm d23)
      · exact absurd (hm.symm.trans h) (Ne.symm d24)
    · rintro rfl; rfl
  · constructor
    · intro h
      rcases mapMicError_cases name with ⟨_, hm⟩ | ⟨_, hm⟩ | ⟨hc, _⟩ | ⟨_, hm⟩
      · exact absurd (hm.symm.trans h) d13
      · exact absurd (hm.symm.trans h) d23
      · exact hc
      · exact absurd (hm.symm.trans h) (Ne.symm d34)
    · rintro rfl; rfl
  · intro h1 h2 h3 h4
    rcases mapMicError_cases name with ⟨hc, _⟩ | ⟨hc, _⟩ | ⟨hc, _⟩ | ⟨_, hm⟩
    · rcases hc with hc | hc
      · exact absurd hc h1
      · exact absurd hc h2
    · exact absurd hc h3
    · exact absurd hc h4
    · exact hm

/-- C8 witness: a platform denial yields the permission-denied message with
the enabled flag cleared; an unrecognized error name maps to the generic
message. -/
theorem enableFailure_spec_witness :
    (enableFailure ⟨some 5, true, none⟩ (some "NotAllowedError")).isEnabled
      = false ∧
    (enableFailure ⟨some 5, true, none⟩ (some "NotAllowedError")).error
      = some permissionDeniedMsg ∧
    mapMicError (some "QuotaExceededError") = genericMicMsg := by
  refine ⟨(enableFailure_spec ⟨some 5, true, none⟩ (some "NotAllowedError")).1,
    ?_,
    (enableFailure_spec ⟨none, false, none⟩
        (some "QuotaExceededError")).2.2.2.2.2.2
      (by decide) (by decide) (by decide) (by decide)⟩
  have h := (enableFailure_spec ⟨some 5, true, none⟩ (some "NotAllowedError")).2.2.1
  rw [(enableFailure_spec ⟨some 5, true, none⟩
      (some "NotAllowedError")).2.2.2.1.mpr (Or.inl rfl)] at h
  exact h

/-! Object-URL lifecycle (C5). -/

theorem urlStep_inv (st : UrlState) (h : UrlInv st) (e : UrlEvent) :
    UrlInv (urlStep st e) := by
  cases e <;>
    rcases h with ⟨h1, h2⟩ | ⟨m, hm, h1, h2⟩ <;>
    simp only [urlStep, h1, h2, Option.toList_some, Option.toList_none,
      List.append_nil] <;>
    [skip; skip; skip; skip; skip; skip]
  · exact Or.inr ⟨st.nextId, rfl, rfl, rfl⟩
  · exact Or.inr ⟨st.nextId, rfl, rfl, by rw [hm, List.range_succ]⟩
  · exact Or.inl ⟨rfl, rfl⟩
  · exact Or.inl ⟨rfl, by rw [hm, List.range_succ]⟩
  · exact Or.inl ⟨rfl, rfl⟩
  · exact Or.inl ⟨rfl, by rw [hm, List.range_succ]⟩

theorem foldl_urlStep_inv (evs : List UrlEvent) (st : UrlState) (h : UrlInv st) :
    UrlInv (evs.foldl urlStep st) := by
  induction evs generalizing st with
  | nil => exact h
  | cons e rest ih => exact ih _ (urlStep_inv st h e)

theorem runUrls_inv (evs : List UrlEvent) : UrlInv (runUrls evs) :=
  foldl_urlStep_inv evs UrlState.init (Or.inl ⟨rfl, rfl⟩)

theorem liveUrls_of_inv (st : UrlState) (h : UrlInv st) :
    liveUrls st = st.prevUrl.toList := by
  rcases h with ⟨h1, h2⟩ | ⟨m, hm, h1, h2⟩
  · rw [liveUrls, h1, h2, Option.toList_none]
    refine List.filter_eq_nil_iff.mpr ?_
    intro u hu
    have hc : (List.range st.nextId).contains u = true :=
      List.elem_eq_true_of_mem hu
    simp [hc, List.mem_range.mp hu]
  · rw [liveUrls, h1, h2, hm, Option.toList_some, List.range_succ,
      List.filter_append]
    have hnil : (List.range m).filter (fun u => ¬ (List.range m).contains u) = [] := by
      refine List.filter_eq_nil_iff.mpr ?_
      intro u hu
      have hc : (List.range m).contains u = true := List.elem_eq_true_of_mem hu
      simp [hc, List.mem_range.mp hu]
    have hkeep : [m].filter (fun u => ¬ (List.range m).contains u) = [m] := by
      have hmem : m ∉ List.range m := by simp [List.mem_range]
      have : (List.range m).contains m = false := by
        by_contra hc
        exact hmem (List.mem_of_elem_eq_true (Bool.of_not_eq_false hc))
      simp [List.filter, this]
    rw [hnil, hkeep, List.nil_append]

/-- C5: after every sequence of blob changes, at most one minted object URL
is live: the live URLs are exactly the currently held one, the revocation
log never revokes a URL twice, every minted URL is either already revoked or
the single live one, and disposal revokes the remainder. -/
theorem urlLifecycle (evs : List UrlEvent) :
    liveUrls (runUrls evs) = (runUrls evs).prevUrl.toList ∧
    (liveUrls (runUrls evs)).length ≤ 1 ∧
    (runUrls evs).revoked.Nodup ∧
    (∀ u, u < (runUrls evs).nextId →
      u ∈ (runUrls evs).revoked ∨ (runUrls evs).prevUrl = some u) ∧
    liveUrls (runUrls (evs ++ [.unmount])) = [] := by
  have hinv := runUrls_inv evs
  have hlive := liveUrls_of_inv _ hinv
  have happ : runUrls (evs ++ [.unmount]) = urlStep (runUrls evs) .unmount := by
    rw [runUrls, List.foldl_append]
    rfl
  have hinv' : UrlInv (runUrls (evs ++ [.unmount])) := runUrls_inv _
  have hprev' : (runUrls (evs ++ [.unmount])).prevUrl = none := by
    rw [happ]
    cases (runUrls evs).prevUrl <;> rfl
  refine ⟨hlive, ?_, ?_, ?_, ?_⟩
  · rw [hlive]
    cases (runUrls evs).prevUrl <;> simp
  · rcases hinv with ⟨_, h2⟩ | ⟨m, _, _, h2⟩ <;> rw [h2] <;>
      exact List.nodup_range _
  · intro u hu
    rcases hinv with ⟨h1, h2⟩ | ⟨m, hm, h1, h2⟩
    · exact Or.inl (h2 ▸ List.mem_range.mpr hu)
    · rcases Nat.lt_succ_iff_lt_or_eq.mp (hm ▸ hu) with hlt | rfl
      · exact Or.inl (h2 ▸ List.mem_range.mpr hlt)
      · exact Or.inr h1
  · rw [liveUrls_of_inv _ hinv', hprev', Option.toList_none]

/-- C5 witness: after two blob changes, the first URL has been revoked and
only the second is live. -/
theorem urlLifecycle_witness :
    liveUrls (runUrls [.blobSet, .blobSet])
      = (runUrls [.blobSet, .blobSet]).prevUrl.toList ∧
    (0 ∈ (runUrls [.blobSet, .blobSet]).revoked ∨
      (runUrls [.blobSet, .blobSet]).prevUrl = some 0) :=
  ⟨(urlLifecycle [.blobSet, .blobSet]).1,
   (urlLifecycle [.blobSet, .blobSet]).2.2.2.1 0 (by decide)⟩

end VoiceRecorder
